import Mathlib

/-!
Shallow embedding of the statistical engine of the DatAnalyzerPro repository
(src/assets/js/script.js, enhanced revision; src/unnamed/part_000, legacy
revision).  JavaScript numbers are modelled as exact rationals together with
explicit NaN and signed-infinity values; the arithmetic operators follow the
ECMAScript rules for those special values.  Math.sqrt is passed to every
function that uses it as an explicit square-root oracle (sq : Q -> Q);
concrete evaluations instantiate it with ratSqrt, which is exact on
perfect-square rationals, and every concrete evaluation below only applies it
at perfect squares.  Number.prototype.toFixed is modelled by exact decimal
rounding (nearest, ties toward the larger integer, as ECMAScript specifies),
and the resulting display string is modelled by the TDisp type, which keeps
the rounded rational (a k-decimal string re-parses exactly to it) next to the
non-numeric strings "NaN", "Infinity", "-Infinity" and "N/A" the code
produces.
-/

/-- A JavaScript number: an exact finite value, NaN, or a signed infinity. -/
inductive JSNum where
  | num : ℚ → JSNum
  | nan : JSNum
  | inf : JSNum
  | ninf : JSNum
deriving DecidableEq, Repr

/-- JavaScript addition on the JSNum model. -/
def jsAdd : JSNum → JSNum → JSNum
  | .nan, _ => .nan
  | _, .nan => .nan
  | .inf, .ninf => .nan
  | .ninf, .inf => .nan
  | .inf, _ => .inf
  | _, .inf => .inf
  | .ninf, _ => .ninf
  | _, .ninf => .ninf
  | .num a, .num b => .num (a + b)

/-- JavaScript subtraction on the JSNum model. -/
def jsSub : JSNum → JSNum → JSNum
  | .nan, _ => .nan
  | _, .nan => .nan
  | .inf, .inf => .nan
  | .ninf, .ninf => .nan
  | .inf, _ => .inf
  | _, .inf => .ninf
  | .ninf, _ => .ninf
  | _, .ninf => .inf
  | .num a, .num b => .num (a - b)

/-- JavaScript multiplication on the JSNum model. -/
def jsMul : JSNum → JSNum → JSNum
  | .nan, _ => .nan
  | _, .nan => .nan
  | .inf, .inf => .inf
  | .inf, .ninf => .ninf
  | .ninf, .inf => .ninf
  | .ninf, .ninf => .inf
  | .inf, .num b => if b = 0 then .nan else if 0 < b then .inf else .ninf
  | .num a, .inf => if a = 0 then .nan else if 0 < a then .inf else .ninf
  | .ninf, .num b => if b = 0 then .nan else if 0 < b then .ninf else .inf
  | .num a, .ninf => if a = 0 then .nan else if 0 < a then .ninf else .inf
  | .num a, .num b => .num (a * b)

/-- JavaScript division on the JSNum model: 0/0 is NaN, a nonzero finite
value divided by zero is a signed infinity (our rationals have no negative
zero, so the zero divisor is +0). -/
def jsDiv : JSNum → JSNum → JSNum
  | .nan, _ => .nan
  | _, .nan => .nan
  | .inf, .inf => .nan
  | .inf, .ninf => .nan
  | .ninf, .inf => .nan
  | .ninf, .ninf => .nan
  | .inf, .num b => if 0 ≤ b then .inf else .ninf
  | .ninf, .num b => if 0 ≤ b then .ninf else .inf
  | .num _, .inf => .num 0
  | .num _, .ninf => .num 0
  | .num a, .num b =>
      if b = 0 then (if a = 0 then .nan else if 0 < a then .inf else .ninf)
      else .num (a / b)

/-- Math.sqrt on the JSNum model, with the real square root supplied as an
oracle `sq` for the finite nonnegative case. -/
def jsSqrt (sq : ℚ → ℚ) : JSNum → JSNum
  | .num q => if q < 0 then .nan else .num (sq q)
  | .nan => .nan
  | .inf => .inf
  | .ninf => .nan

/-- Whether a JSNum is NaN (the isNaN test used by the source's filters). -/
def JSNum.isNaN : JSNum → Bool
  | .nan => true
  | _ => false

/-- Exact decimal rounding to k places, as Number.prototype.toFixed specifies:
the integer n with n / 10^k closest to q, ties resolved to the larger n. -/
def roundFix (k : ℕ) (q : ℚ) : ℚ := (⌊q * 10 ^ k + 1 / 2⌋ : ℚ) / 10 ^ k

/-- The display string produced at a presentation boundary: either a
k-decimal numeric string (represented by the exact rational it denotes and
re-parses to) or one of the literal strings "NaN", "Infinity", "-Infinity",
"N/A" the source returns. -/
inductive TDisp where
  | val : ℚ → TDisp
  | strNaN : TDisp
  | strInfinity : TDisp
  | strNegInfinity : TDisp
  | strNA : TDisp
deriving DecidableEq, Repr

/-- Number.prototype.toFixed(k) on the JSNum model.  NaN renders as "NaN" and
the infinities as "Infinity"/"-Infinity", exactly as in ECMAScript. -/
def jsToFixed (k : ℕ) : JSNum → TDisp
  | .num q => .val (roundFix k q)
  | .nan => .strNaN
  | .inf => .strInfinity
  | .ninf => .strNegInfinity

/-- parseFloat applied to a display string: a k-decimal numeric string parses
back exactly to the rational it denotes, "Infinity" parses to Infinity,
and "NaN" / "N/A" parse to NaN.  Used by performAnalyses, which feeds the
strings produced by calculateSD back through parseFloat. -/
def dispParse : TDisp → JSNum
  | .val q => .num q
  | .strNaN => .nan
  | .strInfinity => .inf
  | .strNegInfinity => .ninf
  | .strNA => .nan

/-- A computable square-root oracle: exact on rationals that are squares of
rationals (the only inputs at which concrete evaluations below use it), and
an arbitrary positive value elsewhere; nonpositive inputs map to 0. -/
def ratSqrt (q : ℚ) : ℚ :=
  if q ≤ 0 then 0
  else
    let n := Nat.sqrt q.num.toNat
    let d := Nat.sqrt q.den
    if n ^ 2 = q.num.toNat ∧ d ^ 2 = q.den then (n : ℚ) / d else 1

theorem ratSqrt_pos (q : ℚ) (hq : 0 < q) : 0 < ratSqrt q := by
  unfold ratSqrt
  rw [if_neg (not_le.mpr hq)]
  by_cases h : (Nat.sqrt q.num.toNat) ^ 2 = q.num.toNat ∧ (Nat.sqrt q.den) ^ 2 = q.den
  · rw [if_pos h]
    have hnum : 0 < q.num := Rat.num_pos.mpr hq
    have h1 : 0 < Nat.sqrt q.num.toNat := by
      rcases Nat.eq_zero_or_pos (Nat.sqrt q.num.toNat) with h0 | h0
      · exfalso
        have := h.1
        rw [h0] at this
        simp at this
        omega
      · exact h0
    have h2 : 0 < Nat.sqrt q.den := by
      rcases Nat.eq_zero_or_pos (Nat.sqrt q.den) with h0 | h0
      · exfalso
        have := h.2
        rw [h0] at this
        have := q.den_pos
        simp at this
        omega
      · exact h0
    positivity
  · rw [if_neg h]
    norm_num

theorem ratSqrt_zero : ratSqrt 0 = 0 := by unfold ratSqrt; norm_num

/-! ## Descriptive statistics (script.js lines 295-334) -/

/-- The population/sample switch passed to calculateSD. -/
inductive SDKind where
  | population
  | sample
deriving DecidableEq, Repr

/-- summation (script.js line 295): values.reduce((sum, value) => sum + value, 0). -/
def summation (values : List ℚ) : ℚ := values.foldl (fun sum v => sum + v) 0

/-- calculateMean (script.js line 304): empty or non-array input yields 0,
otherwise summation / length. -/
def calculateMean (values : List ℚ) : ℚ :=
  if values.length = 0 then 0 else summation values / values.length

/-- getSquareDifferences (script.js line 315): squared deviation of every
data point from the given mean. -/
def getSquareDifferences (data : List ℚ) (mean : ℚ) : List ℚ :=
  data.map (fun v => (v - mean) ^ 2)

/-- calculateSD (script.js line 325): empty data yields the string "0.000";
otherwise variance is sumSquaredDiff / n (population) or
sumSquaredDiff / (n - 1) (sample; for n = 1 this is the JavaScript division
0/0 = NaN), and the result is Math.sqrt(variance).toFixed(3). -/
def calculateSD (sq : ℚ → ℚ) (data : List ℚ) (kind : SDKind) : TDisp :=
  if data.length = 0 then .val 0
  else
    let mean := calculateMean data
    let sumSquaredDiff := summation (getSquareDifferences data mean)
    let variance :=
      match kind with
      | .population => jsDiv (.num sumSquaredDiff) (.num (data.length : ℚ))
      | .sample => jsDiv (.num sumSquaredDiff) (.num ((data.length : ℚ) - 1))
    jsToFixed 3 (jsSqrt sq variance)

/-- calculateSD of src/unnamed/part_000 (lines 47-68).  Its sample branch
reads `sumSquaredDiff / data.length - 1`, which by operator precedence is
(sumSquaredDiff / n) - 1, not sumSquaredDiff / (n - 1). -/
def part000CalculateSD (sq : ℚ → ℚ) (data : List ℚ) (kind : SDKind) : TDisp :=
  let mean := calculateMean data
  let sumSquaredDiff := summation (getSquareDifferences data mean)
  let variance :=
    match kind with
    | .population => jsDiv (.num sumSquaredDiff) (.num (data.length : ℚ))
    | .sample => jsSub (jsDiv (.num sumSquaredDiff) (.num (data.length : ℚ))) (.num 1)
  jsToFixed 3 (jsSqrt sq variance)

/-- Sum of squared deviations of a sample from its own mean. -/
def sumSqDev (g : List ℚ) : ℚ := summation (getSquareDifferences g (calculateMean g))

/-- The spec's population variance (section 4.2): sumSquaredDeviation / n. -/
def specPopulationVariance (g : List ℚ) : ℚ := sumSqDev g / g.length

/-- The spec's sample variance (section 4.2): sumSquaredDeviation / (n - 1). -/
def specSampleVariance (g : List ℚ) : ℚ := sumSqDev g / ((g.length : ℚ) - 1)

/-! ## Two-sample t-test (script.js lines 343-354 and lines 27-32) -/

/-- calculateTtest (script.js line 343, enhanced revision): requires exactly
two means, two sample sizes and two SDs (otherwise the string "N/A"); the
pooled standard error is sqrt(sd1^2/n1 + sd2^2/n2); a zero pooled SE yields
the literal string "Infinity"; otherwise (meanDiff / pooledSD).toFixed(3). -/
def calculateTtest (sq : ℚ → ℚ) (means : List ℚ) (noOfItems : List ℕ)
    (SDs : List JSNum) : TDisp :=
  if means.length ≠ 2 ∨ noOfItems.length ≠ 2 ∨ SDs.length ≠ 2 then .strNA
  else
    let meanDiff := means.getD 0 0 - means.getD 1 0
    let s0 := SDs.getD 0 .nan
    let s1 := SDs.getD 1 .nan
    let pooledSD := jsSqrt sq
      (jsAdd (jsDiv (jsMul s0 s0) (.num (noOfItems.getD 0 0 : ℚ)))
             (jsDiv (jsMul s1 s1) (.num (noOfItems.getD 1 0 : ℚ))))
    if pooledSD = .num 0 then .strInfinity
    else jsToFixed 3 (jsDiv (.num meanDiff) pooledSD)

/-- calculateTtest of the first script.js revision (lines 27-32): the same
formula with no arity guard and no zero-standard-error guard, so the division
meanDiff / g is performed even when g = 0. -/
def calculateTtestLegacy (sq : ℚ → ℚ) (means : List ℚ) (noOfItems : List ℕ)
    (SDs : List JSNum) : TDisp :=
  let meanDiff := means.getD 0 0 - means.getD 1 0
  let s0 := SDs.getD 0 .nan
  let s1 := SDs.getD 1 .nan
  let g := jsSqrt sq
    (jsAdd (jsDiv (jsMul s0 s0) (.num (noOfItems.getD 0 0 : ℚ)))
           (jsDiv (jsMul s1 s1) (.num (noOfItems.getD 1 0 : ℚ))))
  jsToFixed 3 (jsDiv (.num meanDiff) g)

/-- The standard deviations performAnalyses (script.js line 796) hands to
calculateTtest: each dataset's population SD string produced by calculateSD
(script.js line 904), parsed back with parseFloat. -/
def engineTTestSDs (sq : ℚ → ℚ) (groups : List (List ℚ)) : List JSNum :=
  groups.map (fun g => dispParse (calculateSD sq g .population))

/-- The full t-test wiring of performAnalyses (script.js lines 791-798):
means, sample sizes and parsed population-SD strings of the datasets. -/
def engineTTest (sq : ℚ → ℚ) (groups : List (List ℚ)) : TDisp :=
  calculateTtest sq (groups.map calculateMean) (groups.map List.length)
    (engineTTestSDs sq groups)

/-- The square of the section 4.3 t statistic, taken as a function of the two
group variances: t^2 = (m1-m2)^2 / (v1/n1 + v2/n2).  Squaring the statistic
cancels the square root in pooledSE, so this is exactly (meanDiff/pooledSE)^2
in real arithmetic. -/
def tTestStatSqOfVar (m1 m2 v1 v2 : ℚ) (n1 n2 : ℕ) : ℚ :=
  (m1 - m2) ^ 2 / (v1 / n1 + v2 / n2)

/-- The square of the t statistic the engine wiring computes: the SDs are the
parsed calculateSD population strings (3-decimal rounded), and the square of
meanDiff / sqrt(s1^2/n1 + s2^2/n2) is meanDiff^2 / (s1^2/n1 + s2^2/n2); the
toFixed(3) applied to the displayed t is not modelled here (it perturbs the
square by far less than the gaps proved below). -/
def wiredTSq (sq : ℚ → ℚ) (g1 g2 : List ℚ) : ℚ :=
  match engineTTestSDs sq [g1, g2] with
  | [.num s1, .num s2] =>
      tTestStatSqOfVar (calculateMean g1) (calculateMean g2) (s1 ^ 2) (s2 ^ 2)
        g1.length g2.length
  | _ => 0

/-! ## One-way ANOVA (script.js lines 363-395) -/

/-- The record calculateOneWayAnova returns in its non-degenerate branch.
The fields grandMean, essb, essw, dfb, dfw, mssb, mssw expose the function's
internal let-bindings (exact values); F, ESSb, ESSw, MeanSSb, MeanSSw are the
display strings of the returned object ({F, ESSb, ESSw, MeanSSb, MeanSSw,
DFb, DFW} in the source; DFb/DFW are the integers dfb/dfw). -/
structure OneWayOk where
  grandMean : ℚ
  essb : ℚ
  essw : ℚ
  dfb : ℤ
  dfw : ℤ
  mssb : JSNum
  mssw : JSNum
  F : TDisp
  ESSb : TDisp
  ESSw : TDisp
  MeanSSb : TDisp
  MeanSSw : TDisp
deriving DecidableEq, Repr

/-- calculateOneWayAnova (script.js line 363): fewer than 2 groups or
mismatched argument lengths yield { F: "N/A" } (modelled as none); otherwise
the mean-of-means grand mean, between/within sums of squares, df, mean
squares, and F = "Infinity" when mssw is exactly 0, else
(mssb/mssw).toFixed(2). -/
def calculateOneWayAnova (dataset : List (List ℚ)) (means : List ℚ)
    (noOfItems : List ℕ) : Option OneWayOk :=
  if dataset.length < 2 ∨ dataset.length ≠ means.length ∨
      dataset.length ≠ noOfItems.length then none
  else
    let totalItems : ℕ := noOfItems.foldl (fun sum v => sum + v) 0
    let noOfGroups := dataset.length
    let grandMean := calculateMean means
    let dfb : ℤ := (noOfGroups : ℤ) - 1
    let dfw : ℤ := (totalItems : ℤ) - (noOfGroups : ℤ)
    let ssb := (noOfItems.zip means).map (fun p => (p.1 : ℚ) * (p.2 - grandMean) ^ 2)
    let ssw := (dataset.zip means).map (fun p => getSquareDifferences p.1 p.2)
    let essb := summation ssb
    let essw := summation ssw.flatten
    let mssb := jsDiv (.num essb) (.num (dfb : ℚ))
    let mssw := jsDiv (.num essw) (.num (dfw : ℚ))
    let F := if mssw = .num 0 then TDisp.strInfinity else jsToFixed 2 (jsDiv mssb mssw)
    some { grandMean := grandMean, essb := essb, essw := essw, dfb := dfb,
           dfw := dfw, mssb := mssb, mssw := mssw, F := F,
           ESSb := jsToFixed 3 (.num essb), ESSw := jsToFixed 3 (.num essw),
           MeanSSb := jsToFixed 3 mssb, MeanSSw := jsToFixed 3 mssw }

/-- The one-way ANOVA wiring of performAnalyses (script.js lines 801-819):
the groups' means and sizes are computed from the datasets themselves
(script.js lines 903-906). -/
def oneWayOfGroups (groups : List (List ℚ)) : Option OneWayOk :=
  calculateOneWayAnova groups (groups.map calculateMean) (groups.map List.length)

/-- The F display of a one-way ANOVA result; the guard branch { F: "N/A" }
shows the string "N/A". -/
def oneWayFdisp : Option OneWayOk → TDisp
  | none => .strNA
  | some r => r.F

/-- The exact (pre-toFixed) F ratio mssb / mssw of a one-way ANOVA result,
as the JavaScript number the source divides; NaN in the guard branch. -/
def oneWayFexact : Option OneWayOk → JSNum
  | none => .nan
  | some r => jsDiv r.mssb r.mssw

/-- The exact between-groups sum of squares of a one-way ANOVA result. -/
def oneWayEssb : Option OneWayOk → ℚ
  | none => 0
  | some r => r.essb

/-! ## Strings, trimming and parseFloat (script.js lines 509-515) -/

/-- The ASCII whitespace characters stripped by String.prototype.trim and
skipped by parseFloat (the Unicode-only ones are not modelled; no input in
this development contains them). -/
def isWsChar (c : Char) : Bool :=
  c = ' ' ∨ c = '\t' ∨ c = '\n' ∨ c = '\r' ∨ c = '\x0b' ∨ c = '\x0c'

/-- Drop leading whitespace. -/
def trimLeft (cs : List Char) : List Char := cs.dropWhile isWsChar

/-- Drop trailing whitespace. -/
def trimRight (cs : List Char) : List Char := (trimLeft cs.reverse).reverse

/-- String.prototype.trim on the character-list model. -/
def jsTrim (cs : List Char) : List Char := trimRight (trimLeft cs)

/-! ## Two-way ANOVA (script.js lines 398-500) -/

/-- The label pattern match of calculateTwoWayAnova (script.js line 400):
the regular expression (.+?)-(.+) anchored at both ends splits a label at the
first hyphen that has at least one character before it and at least one
character after it; a label admitting no such split fails to match.  The
accumulator collects the characters of the lazy first group. -/
def splitDashAux (acc : List Char) : List Char → Option (List Char × List Char)
  | [] => none
  | c :: r =>
      if c = '-' ∧ acc ≠ [] ∧ r ≠ [] then some (acc.reverse, r)
      else splitDashAux (c :: acc) r

/-- Split a label into its FactorA and FactorB parts per the source regex. -/
def splitFirstDash (cs : List Char) : Option (List Char × List Char) :=
  splitDashAux [] cs

/-- The label-parsing loop of calculateTwoWayAnova (script.js lines 405-414):
each dataset's trimmed label must match the pattern, and the loop stops at
the first label that does not (modelled by none). -/
def parseLabels : List (List Char × List ℚ) →
    Option (List ((List Char × List Char) × List ℚ))
  | [] => some []
  | (lbl, data) :: rest =>
      match splitFirstDash (jsTrim lbl) with
      | none => none
      | some ab => (parseLabels rest).map (fun ts => (ab, data) :: ts)

/-- A JavaScript Set collected by repeated .add(): the distinct elements in
first-occurrence order. -/
def dedupFirst {α : Type} [DecidableEq α] (l : List α) : List α :=
  l.foldl (fun acc a => if a ∈ acc then acc else acc ++ [a]) []

/-- The factor-A level set of the parsed labels (script.js line 401/411). -/
def levelsA (triples : List ((List Char × List Char) × List ℚ)) : List (List Char) :=
  dedupFirst (triples.map (fun t => t.1.1))

/-- The factor-B level set of the parsed labels (script.js line 402/412). -/
def levelsB (triples : List ((List Char × List Char) × List ℚ)) : List (List Char) :=
  dedupFirst (triples.map (fun t => t.1.2))

/-- The groupMap object (script.js line 403/413): assignments in order, a
later dataset with the same "a-b" key overwriting an earlier one. -/
def groupMapOf (triples : List ((List Char × List Char) × List ℚ)) :
    List ((List Char × List Char) × List ℚ) :=
  triples

/-- Lookup in groupMap: the last assignment to the key wins. -/
def lookupLast (k : List Char × List Char)
    (gm : List ((List Char × List Char) × List ℚ)) : Option (List ℚ) :=
  (gm.reverse.find? (fun p => decide (p.1 = k))).map (fun p => p.2)

/-- The cell iteration order of the nested for-of loops (script.js lines
443-444): factor-A levels outer, factor-B levels inner. -/
def cellPairs (A B : List (List Char)) : List (List Char × List Char) :=
  (A.map (fun a => B.map (fun b => (a, b)))).flatten

/-- The cell-collection loop (script.js lines 443-456): walk the cell pairs
in order; the first pair with no groupMap entry aborts with that pair
(the MissingCombination error), otherwise every cell's data is collected. -/
def collectCells (pairs : List (List Char × List Char))
    (gm : List ((List Char × List Char) × List ℚ)) :
    Except (List Char × List Char) (List ((List Char × List Char) × List ℚ)) :=
  match pairs with
  | [] => .ok []
  | p :: rest =>
      match lookupLast p gm with
      | none => .error p
      | some d =>
          match collectCells rest gm with
          | .error q => .error q
          | .ok cs => .ok ((p, d) :: cs)

/-- The outcome of calculateTwoWayAnova: the label-format error (line 408),
the insufficient-levels error (line 419), the missing-combination error
naming the first missing pair (line 447), or the main-effect F displays
(lines 496-499). -/
inductive TwoWayOut where
  | errFormat
  | errLevels
  | errMissing : List Char → List Char → TwoWayOut
  | ok : TDisp → TDisp → TwoWayOut
deriving DecidableEq, Repr

/-- Whether a two-way ANOVA outcome is the success record. -/
def TwoWayOut.isOk : TwoWayOut → Bool
  | .ok _ _ => true
  | _ => false

/-- calculateTwoWayAnova (script.js line 398): parse every label, collect the
two level sets, require at least two levels per factor, require every cell of
the level cross-product to be present (first missing pair reported),
then compute main-effect sums of squares with nPerCell taken from the FIRST
dataset's length (the source comments "Assume equal sample sizes for
simplicity" and performs no balance check), the pooled grand mean over all
input arrays, row/column means by concatenating cell data in loop order, and
F_A, F_B as (MS/MSE).toFixed(3) with the literal string "Infinity" when MSE
is exactly 0. -/
def calculateTwoWayAnova (datasets : List (List Char × List ℚ)) : TwoWayOut :=
  match parseLabels datasets with
  | none => .errFormat
  | some triples =>
      let A := levelsA triples
      let B := levelsB triples
      if A.length < 2 ∨ B.length < 2 then .errLevels
      else
        match collectCells (cellPairs A B) (groupMapOf triples) with
        | .error ab => .errMissing ab.1 ab.2
        | .ok cells =>
            let dataArrays := datasets.map (fun d => d.2)
            let allData := dataArrays.flatten
            let grandMean := calculateMean allData
            let totalN : ℕ := cells.foldl (fun s c => s + c.2.length) 0
            let nPerCell := (dataArrays.headD []).length
            let rowData := fun a =>
              ((cells.filter (fun c => decide (c.1.1 = a))).map (fun c => c.2)).flatten
            let colData := fun b =>
              ((cells.filter (fun c => decide (c.1.2 = b))).map (fun c => c.2)).flatten
            let SSA := summation (A.map (fun a =>
              ((nPerCell * B.length : ℕ) : ℚ) * (calculateMean (rowData a) - grandMean) ^ 2))
            let SSB := summation (B.map (fun b =>
              ((nPerCell * A.length : ℕ) : ℚ) * (calculateMean (colData b) - grandMean) ^ 2))
            let dfA : ℤ := (A.length : ℤ) - 1
            let dfB : ℤ := (B.length : ℤ) - 1
            let dfError : ℤ := (totalN : ℤ) - (A.length : ℤ) * (B.length : ℤ)
            let SSE := summation (cells.map (fun c =>
              summation (getSquareDifferences c.2 (calculateMean c.2))))
            let MSA := jsDiv (.num SSA) (.num (dfA : ℚ))
            let MSB := jsDiv (.num SSB) (.num (dfB : ℚ))
            let MSE := jsDiv (.num SSE) (.num (dfError : ℚ))
            let FA := if MSE = .num 0 then TDisp.strInfinity
                      else jsToFixed 3 (jsDiv MSA MSE)
            let FB := if MSE = .num 0 then TDisp.strInfinity
                      else jsToFixed 3 (jsDiv MSB MSE)
            .ok FA FB

/-! ## parseFloat and the numeric parser (script.js lines 509-515) -/

/-- Decimal digit test. -/
def isDigitChar (c : Char) : Bool := '0' ≤ c ∧ c ≤ '9'

/-- Numeric value of a decimal digit list, most significant first. -/
def natOfDigits (ds : List Char) : ℕ :=
  ds.foldl (fun n c => n * 10 + (c.toNat - '0'.toNat)) 0

/-- Parse an optional exponent part: e or E, an optional sign, then digits,
consumed only when at
least one digit follows, as the longest-valid-prefix rule of parseFloat
requires; otherwise the exponent is 0 and the trailing text is garbage. -/
def parseExponent (cs : List Char) : ℤ :=
  match cs with
  | 'e' :: r => parseSignedDigits r
  | 'E' :: r => parseSignedDigits r
  | _ => 0
where
  parseSignedDigits : List Char → ℤ
    | '+' :: r => parseDigitsPos r
    | '-' :: r => - parseDigitsPos r
    | r => parseDigitsPos r
  parseDigitsPos (r : List Char) : ℤ :=
    let ds := r.takeWhile isDigitChar
    if ds = [] then 0 else (natOfDigits ds : ℤ)

/-- Parse an unsigned StrDecimalLiteral prefix: digits, an optional dot with
more digits, and an optional exponent; none when no digit occurs before the
exponent position (parseFloat returns NaN for such input). -/
def parseDecPre (cs : List Char) : Option ℚ :=
  let ds1 := cs.takeWhile isDigitChar
  let r1 := cs.dropWhile isDigitChar
  let ds2 :=
    match r1 with
    | '.' :: rest => rest.takeWhile isDigitChar
    | _ => []
  let r2 :=
    match r1 with
    | '.' :: rest => rest.dropWhile isDigitChar
    | _ => r1
  if ds1 = [] ∧ ds2 = [] then none
  else
    let mant : ℚ := (natOfDigits ds1 : ℚ) + (natOfDigits ds2 : ℚ) / 10 ^ ds2.length
    some (mant * (10 : ℚ) ^ parseExponent r2)

/-- Whether a character list starts with the literal Infinity. -/
def startsWithInfinity (cs : List Char) : Bool :=
  match cs with
  | 'I' :: 'n' :: 'f' :: 'i' :: 'n' :: 'i' :: 't' :: 'y' :: _ => true
  | _ => false

/-- parseFloat on the character-list model: skip leading whitespace, read an
optional sign, then the longest StrDecimalLiteral prefix ("Infinity" or a
decimal literal); NaN when no such prefix exists.  Trailing garbage after a
valid prefix is ignored, so "3.5abc" parses as 3.5. -/
def jsParseFloat (cs : List Char) : JSNum :=
  match cs.dropWhile isWsChar with
    | '+' :: r =>
        if startsWithInfinity r then .inf
        else match parseDecPre r with
             | none => .nan
             | some q => .num q
    | '-' :: r =>
        if startsWithInfinity r then .ninf
        else match parseDecPre r with
             | none => .nan
             | some q => .num (-q)
    | r =>
        if startsWithInfinity r then .inf
        else match parseDecPre r with
             | none => .nan
             | some q => .num q

/-- String.prototype.split(",") on the character-list model: the pieces
between commas, in order; the empty string splits to one empty piece. -/
def splitComma : List Char → List (List Char)
  | [] => [[]]
  | c :: r =>
      if c = ',' then [] :: splitComma r
      else
        match splitComma r with
        | [] => [[c]]
        | p :: ps => (c :: p) :: ps

/-- parseAndValidateFieldValues (script.js line 509): trim the whole string
(empty after trimming is an immediate failure), split on commas, parse each
trimmed piece with parseFloat, silently filter out the NaN results, and
succeed with the surviving values exactly when at least 3 remain. -/
def parseAndValidateFieldValues (cs : List Char) : Option (List JSNum) :=
  let trimmed := jsTrim cs
  if trimmed = [] then none
  else
    let parsed := ((splitComma trimmed).map (fun p => jsParseFloat (jsTrim p))).filter
      (fun v => ¬ v.isNaN)
    if 3 ≤ parsed.length then some parsed else none

/-- The values of the raw input's comma-split, piece-trimmed tokens that
parse as floating-point numbers — the quantity the specification counts. -/
def numericPieces (cs : List Char) : List JSNum :=
  ((splitComma cs).map (fun p => jsParseFloat (jsTrim p))).filter (fun v => ¬ v.isNaN)

/-! ## Helper lemmas -/

theorem foldl_add_shift (l : List ℚ) (x : ℚ) :
    l.foldl (fun sum v => sum + v) x = x + l.foldl (fun sum v => sum + v) 0 := by
  induction l generalizing x with
  | nil => simp
  | cons a t ih =>
      simp only [List.foldl_cons]
      rw [ih (x + a), ih (0 + a)]
      ring

theorem summation_nil : summation [] = 0 := rfl

theorem summation_cons (a : ℚ) (l : List ℚ) : summation (a :: l) = a + summation l := by
  unfold summation
  simp only [List.foldl_cons]
  rw [foldl_add_shift l (0 + a)]
  ring

theorem summation_append (l1 l2 : List ℚ) :
    summation (l1 ++ l2) = summation l1 + summation l2 := by
  induction l1 with
  | nil => simp [summation_nil]
  | cons a t ih => simp [summation_cons, ih]; ring

theorem summation_nonneg (l : List ℚ) (h : ∀ x ∈ l, 0 ≤ x) : 0 ≤ summation l := by
  induction l with
  | nil => simp [summation_nil]
  | cons a t ih =>
      rw [summation_cons]
      have ha := h a (List.mem_cons_self a t)
      have ht := ih (fun x hx => h x (List.mem_cons_of_mem a hx))
      linarith

theorem sumSqDev_nonneg (g : List ℚ) : 0 ≤ sumSqDev g := by
  unfold sumSqDev getSquareDifferences
  apply summation_nonneg
  intro x hx
  simp only [List.mem_map] at hx
  obtain ⟨v, _, rfl⟩ := hx
  positivity

theorem jsDiv_num_num (a b : ℚ) (hb : b ≠ 0) :
    jsDiv (.num a) (.num b) = .num (a / b) := by
  simp [jsDiv, hb]

/-! ## C2: the spec's worked one-way ANOVA example -/

/-- C2 counterexample: on groups [1,2,3], [4,5,6], [7,8,9] the engine's
between-groups sum of squares is 54, not the claimed 6 (the group means are
2, 5, 8, not the 4, 5, 6 the spec's arithmetic uses), and the reported F is
27.00, not the claimed 3.00. -/
theorem spec_C2_counterexample :
    oneWayEssb (oneWayOfGroups [[1, 2, 3], [4, 5, 6], [7, 8, 9]]) = 54 ∧
    (54 : ℚ) ≠ 6 ∧
    oneWayFdisp (oneWayOfGroups [[1, 2, 3], [4, 5, 6], [7, 8, 9]]) = .val 27 ∧
    TDisp.val 27 ≠ TDisp.val 3 := by
  refine ⟨by with_unfolding_all decide, by norm_num, by with_unfolding_all decide,
    by with_unfolding_all decide⟩

/-- C2 amended: one-way ANOVA on groups [1,2,3], [4,5,6], [7,8,9] produces
grand mean 5.0, ssBetween = 54, ssWithin = 6, dfBetween = 2, dfWithin = 6,
msBetween = 27, msWithin = 1, and F = 27.00. -/
theorem spec_C2_theorem :
    oneWayOfGroups [[1, 2, 3], [4, 5, 6], [7, 8, 9]] =
      some { grandMean := 5, essb := 54, essw := 6, dfb := 2, dfw := 6,
             mssb := .num 27, mssw := .num 1, F := .val 27, ESSb := .val 54,
             ESSw := .val 6, MeanSSb := .val 27, MeanSSw := .val 1 } := by
  with_unfolding_all decide

/-! ## C7: calculateSD on a one-element sample in sample mode -/

/-- C7 counterexample: on the one-element sample [5] in sample mode,
calculateSD silently returns the string "NaN" (the JavaScript division
0/0 propagated through Math.sqrt and toFixed) — there is no ArithmeticError
failure channel in the code at all. -/
theorem spec_C7_counterexample :
    calculateSD ratSqrt [5] .sample = .strNaN := by with_unfolding_all decide

/-- C7 amended: for every one-element sample, calculateSD in sample mode
returns the string "NaN" (variance is the JavaScript division 0/0 = NaN,
Math.sqrt(NaN) is NaN, and NaN.toFixed(3) is "NaN"); it neither raises an
error nor returns Infinity. -/
theorem spec_C7_theorem (sq : ℚ → ℚ) (x : ℚ) :
    calculateSD sq [x] .sample = .strNaN := by
  unfold calculateSD calculateMean summation getSquareDifferences
  norm_num [jsDiv, jsSqrt, jsToFixed]

/-! ## C8: the sample-variance formula across implementations -/

/-- C8: the part_000 implementation of calculateSD computes its sample
variance as (sumSquaredDiff / n) - 1 (operator-precedence slip), so on the
sample [1,2,3] it takes the square root of -1/3 and returns the string
"NaN", while the script.js implementation and the spec's formula
sumSquaredDiff / (n - 1) both give exactly 1. -/
theorem spec_C8_theorem :
    part000CalculateSD ratSqrt [1, 2, 3] .sample = .strNaN ∧
    calculateSD ratSqrt [1, 2, 3] .sample = .val 1 ∧
    specSampleVariance [1, 2, 3] = 1 ∧
    ratSqrt (specSampleVariance [1, 2, 3]) = 1 := by
  refine ⟨by with_unfolding_all decide, by with_unfolding_all decide,
    by with_unfolding_all decide, by with_unfolding_all decide⟩

/-! ## C4: the t-test at zero pooled standard error -/

/-- C4 counterexample: with both groups constant and identical (means 5 and
5, SDs 0 and 0, three samples each), the legacy t-test implementation
(script.js lines 27-32) returns the string "NaN" (0/0), so the t-test does
return NaN on some input; and the guarded implementation (lines 343-354)
returns the literal string "Infinity" — the raw-Infinity rendering — rather
than any distinguished "zero standard error" sentinel. -/
theorem spec_C4_counterexample :
    calculateTtestLegacy ratSqrt [5, 5] [3, 3] [.num 0, .num 0] = .strNaN ∧
    calculateTtest ratSqrt [5, 5] [3, 3] [.num 0, .num 0] = .strInfinity := by
  refine ⟨by with_unfolding_all decide, by with_unfolding_all decide⟩

/-- C4 amended: for finite SD inputs and positive sample sizes, the guarded
calculateTtest returns the literal string "Infinity" whenever the pooled
standard error sd1^2/n1 + sd2^2/n2 is zero, and never returns the string
"NaN"; the sentinel is the string "Infinity" itself, not a labelled
"zero standard error" value, and the legacy implementation returns "NaN"
when both groups are constant and identical. -/
theorem spec_C4_theorem (sq : ℚ → ℚ) (hsq : ∀ q : ℚ, 0 < q → 0 < sq q)
    (hsq0 : sq 0 = 0) (m1 m2 s1 s2 : ℚ) (n1 n2 : ℕ)
    (hn1 : 0 < n1) (hn2 : 0 < n2) :
    (s1 ^ 2 / (n1 : ℚ) + s2 ^ 2 / (n2 : ℚ) = 0 →
      calculateTtest sq [m1, m2] [n1, n2] [.num s1, .num s2] = .strInfinity) ∧
    calculateTtest sq [m1, m2] [n1, n2] [.num s1, .num s2] ≠ .strNaN := by
  have hn1q : ((n1 : ℚ)) ≠ 0 := Nat.cast_ne_zero.mpr hn1.ne'
  have hn2q : ((n2 : ℚ)) ≠ 0 := Nat.cast_ne_zero.mpr hn2.ne'
  have hE : jsAdd (jsDiv (jsMul (.num s1) (.num s1)) (.num (n1 : ℚ)))
      (jsDiv (jsMul (.num s2) (.num s2)) (.num (n2 : ℚ))) =
      .num (s1 ^ 2 / (n1 : ℚ) + s2 ^ 2 / (n2 : ℚ)) := by
    simp only [jsMul, jsDiv_num_num _ _ hn1q, jsDiv_num_num _ _ hn2q, jsAdd]
    ring_nf
  have hEnn : 0 ≤ s1 ^ 2 / (n1 : ℚ) + s2 ^ 2 / (n2 : ℚ) := by positivity
  unfold calculateTtest
  rw [if_neg (by norm_num)]
  simp only [List.getD, List.get?, Option.getD_some]
  rw [hE]
  simp only [jsSqrt]
  rw [if_neg (not_lt.mpr hEnn)]
  rcases eq_or_lt_of_le hEnn with hz | hp
  · rw [← hz, hsq0]
    simp
  · have hpos := hsq _ hp
    constructor
    · intro h0
      exact absurd h0 (ne_of_gt hp)
    · rw [if_neg (by simp [hpos.ne'] :
        ¬ JSNum.num (sq (s1 ^ 2 / (n1 : ℚ) + s2 ^ 2 / (n2 : ℚ))) = JSNum.num 0)]
      simp [jsDiv_num_num _ _ hpos.ne', jsToFixed]

/-- C4 witness: the amended theorem applied at means 5 and 5, SDs 0 and 0,
three samples each. -/
theorem spec_C4_witness :
    calculateTtest ratSqrt [5, 5] [3, 3] [.num 0, .num 0] = .strInfinity ∧
    calculateTtest ratSqrt [5, 5] [3, 3] [.num 0, .num 0] ≠ .strNaN :=
  ⟨(spec_C4_theorem ratSqrt ratSqrt_pos ratSqrt_zero 5 5 0 0 3 3
      (by decide) (by decide)).1 (by norm_num),
   (spec_C4_theorem ratSqrt ratSqrt_pos ratSqrt_zero 5 5 0 0 3 3
      (by decide) (by decide)).2⟩

/-! ## C1: precision of the SDs fed to the t-test -/

set_option maxRecDepth 4000 in
/-- C1 counterexample: for the dataset [1/3, 7/3, -1/3, -7/3] the
full-precision population SD is 5/3, but the SD the engine wiring hands to
calculateTtest is the 3-decimal display value 1.667 — the standard deviation
is rounded before it is used as input to a downstream test. -/
theorem spec_C1_counterexample :
    engineTTestSDs ratSqrt [[1/3, 7/3, -1/3, -7/3]] = [JSNum.num (1667/1000)] ∧
    ratSqrt (specPopulationVariance [1/3, 7/3, -1/3, -7/3]) = 5/3 ∧
    (1667/1000 : ℚ) ≠ 5/3 := by
  refine ⟨by with_unfolding_all decide, by with_unfolding_all decide, by norm_num⟩

/-- C1 amended: the SDs the engine feeds to the two-sample t-test are the
3-decimal-rounded display values: for every nonempty dataset, the value that
reaches calculateTtest is roundFix 3 (sqrt (population variance)) — the
toFixed(3) string produced by calculateSD, parsed back by performAnalyses —
so rounding happens before the SD is used downstream, not only at the
presentation boundary. -/
theorem spec_C1_theorem (sq : ℚ → ℚ) (groups : List (List ℚ))
    (h : ∀ g ∈ groups, g ≠ []) :
    engineTTestSDs sq groups =
      groups.map (fun g => JSNum.num (roundFix 3 (sq (specPopulationVariance g)))) := by
  unfold engineTTestSDs
  apply List.map_congr_left
  intro g hg
  have hlen : g.length ≠ 0 := by
    simpa [List.length_eq_zero] using h g hg
  have hlenq : ((g.length : ℚ)) ≠ 0 := Nat.cast_ne_zero.mpr hlen
  have hvar : specPopulationVariance g =
      summation (getSquareDifferences g (calculateMean g)) / (g.length : ℚ) := rfl
  have hnn : 0 ≤ specPopulationVariance g := by
    rw [hvar]
    have h1 : 0 ≤ summation (getSquareDifferences g (calculateMean g)) :=
      sumSqDev_nonneg g
    positivity
  unfold calculateSD
  rw [if_neg hlen]
  simp only [jsDiv_num_num _ _ hlenq, ← hvar, jsSqrt]
  rw [if_neg (not_lt.mpr hnn)]
  simp [jsToFixed, dispParse]

/-- C1 witness: the amended theorem applied to the single dataset [3,4,5]. -/
theorem spec_C1_witness :
    engineTTestSDs ratSqrt [[3, 4, 5]] =
      [JSNum.num (roundFix 3 (ratSqrt (specPopulationVariance [3, 4, 5])))] :=
  spec_C1_theorem ratSqrt [[3, 4, 5]] (by simp)

/-! ## C3: F versus the square of the wired t statistic -/

set_option maxRecDepth 8000 in
/-- C3 counterexample: on the groups [11,17,9,3] and [4,4,-4,-4] (population
SDs exactly 5 and 4, so toFixed(3) rounding is the identity and the wiring is
evaluated exactly), the one-way ANOVA F ratio is 300/41 while the square of
the t statistic computed from the engine's wired (population) SDs is 400/41;
they differ by 100/41 > 1, far beyond any floating tolerance. -/
theorem spec_C3_counterexample :
    oneWayFexact (oneWayOfGroups [[11, 17, 9, 3], [4, 4, -4, -4]]) = .num (300/41) ∧
    wiredTSq ratSqrt [11, 17, 9, 3] [4, 4, -4, -4] = 400/41 ∧
    ¬ (|(300/41 : ℚ) - 400/41| ≤ 1) := by
  refine ⟨by with_unfolding_all decide, by with_unfolding_all decide, by norm_num [abs_le]⟩

/-- C3 amended: for two samples of the same size n ≥ 3 with nonzero combined
within-group variability, the exact one-way ANOVA F ratio equals the square
of the t statistic computed from the groups' UNROUNDED SAMPLE variances
(F = t^2); the identity fails for the engine's actual wiring, which feeds the
t-test the 3-decimal-rounded POPULATION SDs. -/
theorem spec_C3_theorem (g1 g2 : List ℚ) (n : ℕ) (hn : 3 ≤ n)
    (h1 : g1.length = n) (h2 : g2.length = n)
    (hw : sumSqDev g1 + sumSqDev g2 ≠ 0) :
    oneWayFexact (oneWayOfGroups [g1, g2]) =
      .num (tTestStatSqOfVar (calculateMean g1) (calculateMean g2)
        (specSampleVariance g1) (specSampleVariance g2) n n) := by
  unfold oneWayOfGroups calculateOneWayAnova
  rw [if_neg (by simp)]
  simp only [List.map_cons, List.map_nil, List.zip_cons_cons, List.zip_nil_right,
    List.foldl_cons, List.foldl_nil, List.flatten_cons, List.flatten_nil,
    List.length_cons, List.length_nil, List.append_nil]
  simp only [oneWayFexact]
  have hsum2 : ∀ a b : ℚ, summation [a, b] = a + b := by
    intro a b
    rw [summation_cons, summation_cons, summation_nil]
    ring
  have hmean2 : ∀ a b : ℚ, calculateMean [a, b] = (a + b) / 2 := by
    intro a b
    unfold calculateMean
    simp [hsum2]
  rw [h1, h2]
  simp only [hsum2, hmean2, summation_append]
  norm_num
  have h3 : (3 : ℚ) ≤ (n : ℚ) := by exact_mod_cast hn
  have hn0 : ((n : ℚ)) ≠ 0 := by intro h; rw [h] at h3; norm_num at h3
  have hnm1 : ((n : ℚ)) - 1 ≠ 0 := by intro h; nlinarith
  have hd : ((n : ℚ)) + (n : ℚ) - 2 ≠ 0 := by intro h; nlinarith
  rw [jsDiv_num_num _ _ one_ne_zero, jsDiv_num_num _ _ hd]
  have hq : (summation (getSquareDifferences g1 (calculateMean g1)) +
      summation (getSquareDifferences g2 (calculateMean g2))) / ((n : ℚ) + (n : ℚ) - 2) ≠ 0 :=
    div_ne_zero hw hd
  rw [jsDiv_num_num _ _ hq]
  congr 1
  unfold tTestStatSqOfVar specSampleVariance sumSqDev
  rw [h1, h2]
  have hw' : summation (getSquareDifferences g1 (calculateMean g1)) +
      summation (getSquareDifferences g2 (calculateMean g2)) ≠ 0 := hw
  set a := summation (getSquareDifferences g1 (calculateMean g1)) with ha
  set b := summation (getSquareDifferences g2 (calculateMean g2)) with hb
  set x := calculateMean g1 with hx
  set y := calculateMean g2 with hy
  rw [div_one, div_div, div_div, div_add_div_same]
  rw [div_div_eq_mul_div, div_div_eq_mul_div]
  field_simp [hw']
  ring

/-- C3 witness: the amended theorem applied to the groups [1,2,3] and
[4,5,6], where both exact statistics equal 13.5. -/
theorem spec_C3_witness :
    sumSqDev [(1 : ℚ), 2, 3] + sumSqDev [(4 : ℚ), 5, 6] ≠ 0 ∧
    oneWayFexact (oneWayOfGroups [[1, 2, 3], [4, 5, 6]]) =
      .num (tTestStatSqOfVar (calculateMean [1, 2, 3]) (calculateMean [4, 5, 6])
        (specSampleVariance [1, 2, 3]) (specSampleVariance [4, 5, 6]) 3 3) :=
  ⟨by with_unfolding_all decide,
   spec_C3_theorem [1, 2, 3] [4, 5, 6] 3 (by decide) rfl rfl
     (by with_unfolding_all decide)⟩

/-! ## C9: one-way ANOVA degenerate cases -/

theorem jsDiv_nan_right (x : JSNum) : jsDiv x .nan = .nan := by
  cases x <;> rfl

theorem foldlNat_add_shift (l : List ℕ) (x : ℕ) :
    l.foldl (fun sum v => sum + v) x = x + l.foldl (fun sum v => sum + v) 0 := by
  induction l generalizing x with
  | nil => simp
  | cons a t ih =>
      simp only [List.foldl_cons]
      rw [ih (x + a), ih (0 + a)]
      omega

theorem totalItems_singletons (groups : List (List ℚ))
    (h : ∀ g ∈ groups, g.length = 1) :
    (groups.map List.length).foldl (fun sum v => sum + v) 0 = groups.length := by
  induction groups with
  | nil => simp
  | cons g t ih =>
      simp only [List.map_cons, List.foldl_cons, List.length_cons]
      rw [foldlNat_add_shift]
      rw [ih (fun g' hg' => h g' (List.mem_cons_of_mem g hg'))]
      have := h g (List.mem_cons_self g t)
      omega

theorem calculateMean_singleton (x : ℚ) : calculateMean [x] = x := by
  unfold calculateMean summation
  norm_num

theorem essw_singletons (groups : List (List ℚ)) (h : ∀ g ∈ groups, g.length = 1) :
    summation (((groups.zip (groups.map calculateMean)).map
      (fun p => getSquareDifferences p.1 p.2)).flatten) = 0 := by
  induction groups with
  | nil => simp [summation_nil]
  | cons g t ih =>
      simp only [List.map_cons, List.zip_cons_cons, List.flatten_cons]
      rw [summation_append]
      have hg := h g (List.mem_cons_self g t)
      obtain ⟨x, rfl⟩ := List.length_eq_one.mp hg
      rw [ih (fun g' hg' => h g' (List.mem_cons_of_mem _ hg'))]
      rw [calculateMean_singleton]
      simp [getSquareDifferences, summation_cons, summation_nil]

/-- C9 counterexample: on the groups [[1],[2]] — total sample count equal to
the number of groups, dfWithin = 0 — calculateOneWayAnova does NOT fail with
any DegenerateDesign error: it returns a success record whose F display is
the string "NaN" (the JavaScript division 0/0 escaping the mssw === 0
guard). -/
theorem spec_C9_counterexample :
    (oneWayOfGroups [[1], [2]]).isSome = true ∧
    oneWayFdisp (oneWayOfGroups [[1], [2]]) = .strNaN := by
  refine ⟨by with_unfolding_all decide, by with_unfolding_all decide⟩

/-- C9 amended: one-way ANOVA returns the non-numeric sentinel { F: "N/A" }
(modelled none) for fewer than 2 groups, but it performs no DegenerateDesign
check: when every group is a singleton (total sample count equals the group
count, so dfWithin = 0), it returns a success record whose F display is the
string "NaN" rather than failing; in neither case is a numeric F produced. -/
theorem spec_C9_theorem :
    (∀ (dataset : List (List ℚ)) (means : List ℚ) (noOfItems : List ℕ),
        dataset.length < 2 → calculateOneWayAnova dataset means noOfItems = none) ∧
    (∀ groups : List (List ℚ), 2 ≤ groups.length → (∀ g ∈ groups, g.length = 1) →
        oneWayFdisp (oneWayOfGroups groups) = .strNaN) := by
  constructor
  · intro ds ms ns h
    unfold calculateOneWayAnova
    rw [if_pos (Or.inl h)]
  · intro groups hk hs
    unfold oneWayOfGroups calculateOneWayAnova
    rw [if_neg (by push_neg; exact ⟨hk, by simp, by simp⟩)]
    simp only [oneWayFdisp]
    rw [totalItems_singletons groups hs, essw_singletons groups hs]
    have hz : ((groups.length : ℤ) - (groups.length : ℤ)) = 0 := by ring
    rw [hz]
    have hd00 : jsDiv (JSNum.num 0) (JSNum.num ((0 : ℤ) : ℚ)) = .nan := by
      simp [jsDiv]
    rw [hd00]
    rw [if_neg (by simp)]
    rw [jsDiv_nan_right]
    rfl

/-- C9 witness: the amended theorem applied to a single-group input (the
arity sentinel) and to the three singleton groups [[5],[6],[7]]. -/
theorem spec_C9_witness :
    calculateOneWayAnova [[1]] [1] [1] = none ∧
    oneWayFdisp (oneWayOfGroups [[5], [6], [7]]) = .strNaN :=
  ⟨spec_C9_theorem.1 [[1]] [1] [1] (by decide),
   spec_C9_theorem.2 [[5], [6], [7]] (by decide) (by decide)⟩

/-! ## C5 and C6: two-way ANOVA factorial validation -/

theorem collectCells_ok (pairs : List (List Char × List Char))
    (gm : List ((List Char × List Char) × List ℚ))
    (h : ∀ p ∈ pairs, (lookupLast p gm).isSome) :
    ∃ cells, collectCells pairs gm = .ok cells := by
  induction pairs with
  | nil => exact ⟨[], rfl⟩
  | cons p rest ih =>
      have hp := h p (List.mem_cons_self p rest)
      obtain ⟨d, hd⟩ := Option.isSome_iff_exists.mp hp
      obtain ⟨cs, hcs⟩ := ih (fun q hq => h q (List.mem_cons_of_mem _ hq))
      refine ⟨(p, d) :: cs, ?_⟩
      unfold collectCells
      rw [hd, hcs]

theorem collectCells_first_missing (pairs : List (List Char × List Char))
    (gm : List ((List Char × List Char) × List ℚ)) (p : List Char × List Char)
    (h : pairs.find? (fun q => (lookupLast q gm).isNone) = some p) :
    collectCells pairs gm = .error p := by
  induction pairs with
  | nil => simp [List.find?] at h
  | cons q rest ih =>
      by_cases hq : (lookupLast q gm).isNone = true
      · rw [@List.find?_cons_of_pos _ (fun q => (lookupLast q gm).isNone) q rest hq] at h
        obtain rfl : q = p := by simpa using h
        unfold collectCells
        rw [Option.isNone_iff_eq_none.mp hq]
      · rw [@List.find?_cons_of_neg _ (fun q => (lookupLast q gm).isNone) q rest
          (by simpa using hq)] at h
        obtain ⟨d, hd⟩ := Option.ne_none_iff_exists.mp
          (by simpa [Option.isNone_iff_eq_none] using hq)
        unfold collectCells
        rw [← hd, ih h]

theorem twoWay_first_missing (datasets : List (List Char × List ℚ))
    (triples : List ((List Char × List Char) × List ℚ)) (a b : List Char)
    (hp : parseLabels datasets = some triples)
    (hA : 2 ≤ (levelsA triples).length) (hB : 2 ≤ (levelsB triples).length)
    (hfind : (cellPairs (levelsA triples) (levelsB triples)).find?
        (fun q => (lookupLast q (groupMapOf triples)).isNone) = some (a, b)) :
    calculateTwoWayAnova datasets = .errMissing a b := by
  unfold calculateTwoWayAnova
  split
  · next heq => rw [hp] at heq; cases heq
  · next ts heq =>
      rw [hp] at heq
      cases heq
      rw [if_neg (by push_neg; exact ⟨hA, hB⟩)]
      rw [collectCells_first_missing _ _ _ hfind]

set_option maxRecDepth 8000 in
/-- C5 counterexample: a complete 2-by-2 factorial labeling whose fourth cell
has 2 samples while the first has 3 — an unbalanced design — is NOT rejected:
calculateTwoWayAnova performs no UnbalancedDesign check and computes its
main-effect F statistics anyway (using the first dataset's length as the
per-cell size). -/
theorem spec_C5_counterexample :
    ([1, 2, 3] : List ℚ).length ≠ ([1, 2] : List ℚ).length ∧
    (calculateTwoWayAnova [("A-X".toList, [1, 2, 3]), ("A-Y".toList, [4, 5, 6]),
      ("B-X".toList, [7, 8, 9]), ("B-Y".toList, [1, 2])]).isOk = true := by
  refine ⟨by decide, by with_unfolding_all decide⟩

/-- C5 amended: the two-way ANOVA performs no balance check at all — for
every collection of labeled datasets whose labels all parse, with at least
2 levels per factor and every level combination present, the computation
proceeds to a success record (using the first dataset's length as nPerCell),
whether or not the cell sample counts agree. -/
theorem spec_C5_theorem (datasets : List (List Char × List ℚ))
    (triples : List ((List Char × List Char) × List ℚ))
    (hp : parseLabels datasets = some triples)
    (hA : 2 ≤ (levelsA triples).length) (hB : 2 ≤ (levelsB triples).length)
    (hall : ∀ p ∈ cellPairs (levelsA triples) (levelsB triples),
        (lookupLast p (groupMapOf triples)).isSome) :
    (calculateTwoWayAnova datasets).isOk = true := by
  unfold calculateTwoWayAnova
  split
  · next heq => rw [hp] at heq; cases heq
  · next ts heq =>
      rw [hp] at heq
      cases heq
      rw [if_neg (by push_neg; exact ⟨hA, hB⟩)]
      obtain ⟨cells, hcells⟩ := collectCells_ok _ _ hall
      rw [hcells]
      rfl

set_option maxRecDepth 8000 in
/-- C5 witness: the no-balance-check theorem applied to a balanced complete
2-by-2 design. -/
theorem spec_C5_witness :
    (calculateTwoWayAnova [("C-X".toList, [1, 2, 3]), ("C-Y".toList, [2, 3, 4]),
      ("D-X".toList, [3, 4, 5]), ("D-Y".toList, [4, 5, 6])]).isOk = true :=
  spec_C5_theorem _
    [(("C".toList, "X".toList), [1, 2, 3]), (("C".toList, "Y".toList), [2, 3, 4]),
     (("D".toList, "X".toList), [3, 4, 5]), (("D".toList, "Y".toList), [4, 5, 6])]
    (by with_unfolding_all decide) (by with_unfolding_all decide)
    (by with_unfolding_all decide) (by with_unfolding_all decide)

set_option maxRecDepth 8000 in
/-- C6 counterexample: with labels A-X, A-Y, B-X, B-Y, A-X — the combination
(A, X) has TWO assigned datasets — the factorial validation does not fail:
the later dataset silently overwrites the earlier one in groupMap and the
computation succeeds, so "exactly one assigned dataset" is not enforced. -/
theorem spec_C6_counterexample :
    (calculateTwoWayAnova [("A-X".toList, [1, 2, 3]), ("A-Y".toList, [4, 5, 6]),
      ("B-X".toList, [7, 8, 9]), ("B-Y".toList, [1, 2, 4]),
      ("A-X".toList, [9, 9, 9])]).isOk = true := by
  with_unfolding_all decide

set_option maxRecDepth 8000 in
/-- C6 amended: with all labels parsing and at least 2 levels per factor, the
validation fails with the missing-combination error naming the FIRST missing
(a, b) pair of the level cross-product whenever some combination has no
assigned dataset — it requires at least one dataset per combination
(duplicate labels are not rejected; the last dataset wins); in particular,
labels A-X, A-Y, B-X fail with missing combination B-Y. -/
theorem spec_C6_theorem :
    (∀ (datasets : List (List Char × List ℚ))
       (triples : List ((List Char × List Char) × List ℚ)) (a b : List Char),
        parseLabels datasets = some triples →
        2 ≤ (levelsA triples).length → 2 ≤ (levelsB triples).length →
        (cellPairs (levelsA triples) (levelsB triples)).find?
            (fun q => (lookupLast q (groupMapOf triples)).isNone) = some (a, b) →
        calculateTwoWayAnova datasets = .errMissing a b) ∧
    calculateTwoWayAnova [("A-X".toList, [1, 2, 3]), ("A-Y".toList, [4, 5, 6]),
      ("B-X".toList, [7, 8, 9])] = .errMissing "B".toList "Y".toList := by
  refine ⟨fun ds ts a b hp hA hB hf => twoWay_first_missing ds ts a b hp hA hB hf,
    by with_unfolding_all decide⟩

set_option maxRecDepth 8000 in
/-- C6 witness: the first-missing-pair theorem applied to the labels P-Q,
P-R, S-Q, whose first missing combination is (S, R). -/
theorem spec_C6_witness :
    calculateTwoWayAnova [("P-Q".toList, [1, 2, 3]), ("P-R".toList, [4, 5, 6]),
      ("S-Q".toList, [7, 8, 9])] = .errMissing "S".toList "R".toList :=
  spec_C6_theorem.1 _
    [(("P".toList, "Q".toList), [1, 2, 3]), (("P".toList, "R".toList), [4, 5, 6]),
     (("S".toList, "Q".toList), [7, 8, 9])] "S".toList "R".toList
    (by with_unfolding_all decide) (by with_unfolding_all decide)
    (by with_unfolding_all decide) (by with_unfolding_all decide)

/-! ## C10 helper lemmas: trimming commutes with comma-splitting -/

/-- Append a character to the last piece of a nonempty piece list. -/
def appLast (c : Char) : List (List Char) → List (List Char)
  | [] => [[c]]
  | [p] => [p ++ [c]]
  | p :: ps => p :: appLast c ps

theorem splitComma_ne_nil (cs : List Char) : splitComma cs ≠ [] := by
  induction cs with
  | nil => simp [splitComma]
  | cons c r ih =>
      unfold splitComma
      by_cases hc : c = ','
      · simp [hc]
      · rw [if_neg hc]
        rcases hsp : splitComma r with _ | ⟨p, ps⟩
        · exact absurd hsp ih
        · simp

theorem isWsChar_ne_comma (c : Char) (h : isWsChar c = true) : c ≠ ',' := by
  intro hc
  rw [hc] at h
  simp [isWsChar] at h

theorem jsTrim_cons_ws (c : Char) (h : isWsChar c = true) (p : List Char) :
    jsTrim (c :: p) = jsTrim p := by
  unfold jsTrim trimLeft
  rw [List.dropWhile_cons_of_pos h]

theorem trimLeft_append (p q : List Char) :
    trimLeft (p ++ q) = if trimLeft p = [] then trimLeft q else trimLeft p ++ q := by
  induction p with
  | nil => simp [trimLeft]
  | cons x p ih =>
      by_cases hx : isWsChar x = true
      · unfold trimLeft
        rw [List.cons_append, List.dropWhile_cons_of_pos hx, List.dropWhile_cons_of_pos hx]
        exact ih
      · unfold trimLeft
        rw [List.cons_append, List.dropWhile_cons_of_neg hx, List.dropWhile_cons_of_neg hx]
        simp

theorem trimRight_append_ws (xs : List Char) (c : Char) (h : isWsChar c = true) :
    trimRight (xs ++ [c]) = trimRight xs := by
  unfold trimRight trimLeft
  rw [List.reverse_append]
  simp only [List.reverse_cons, List.reverse_nil, List.nil_append, List.singleton_append]
  rw [List.dropWhile_cons_of_pos h]

theorem trimRight_append_not_ws (xs : List Char) (c : Char) (h : ¬ isWsChar c = true) :
    trimRight (xs ++ [c]) = xs ++ [c] := by
  unfold trimRight trimLeft
  rw [List.reverse_append]
  simp only [List.reverse_cons, List.reverse_nil, List.nil_append, List.singleton_append]
  rw [List.dropWhile_cons_of_neg h]
  simp

theorem jsTrim_append_ws (p : List Char) (c : Char) (h : isWsChar c = true) :
    jsTrim (p ++ [c]) = jsTrim p := by
  unfold jsTrim
  rw [show trimLeft (p ++ [c]) =
      if trimLeft p = [] then trimLeft [c] else trimLeft p ++ [c] from trimLeft_append p [c]]
  by_cases hp : trimLeft p = []
  · rw [if_pos hp, hp]
    unfold trimLeft
    rw [List.dropWhile_cons_of_pos h]
    rfl
  · rw [if_neg hp]
    exact trimRight_append_ws _ _ h

theorem splitComma_append_comma (xs : List Char) :
    splitComma (xs ++ [',']) = splitComma xs ++ [[]] := by
  induction xs with
  | nil => rfl
  | cons x xs ih =>
      by_cases hx : x = ','
      · subst hx
        rw [List.cons_append]
        unfold splitComma
        rw [if_pos rfl, if_pos rfl, ih]
        rfl
      · rw [List.cons_append]
        unfold splitComma
        rw [if_neg hx, if_neg hx, ih]
        rcases hsp : splitComma xs with _ | ⟨p, ps⟩
        · exact absurd hsp (splitComma_ne_nil xs)
        · simp

theorem splitComma_append_not_comma (xs : List Char) (c : Char) (hc : c ≠ ',') :
    splitComma (xs ++ [c]) = appLast c (splitComma xs) := by
  induction xs with
  | nil =>
      simp only [List.nil_append]
      unfold splitComma
      rw [if_neg hc]
      rfl
  | cons x xs ih =>
      by_cases hx : x = ','
      · subst hx
        rw [List.cons_append]
        unfold splitComma
        rw [if_pos rfl, if_pos rfl, ih]
        rcases hsp : splitComma xs with _ | ⟨p, ps⟩
        · exact absurd hsp (splitComma_ne_nil xs)
        · rfl
      · rw [List.cons_append]
        unfold splitComma
        rw [if_neg hx, if_neg hx, ih]
        rcases hsp : splitComma xs with _ | ⟨p, ps⟩
        · exact absurd hsp (splitComma_ne_nil xs)
        · rcases ps with _ | ⟨q, qs⟩
          · rfl
          · rfl

theorem map_jsTrim_appLast (c : Char) (hc : isWsChar c = true) (l : List (List Char))
    (hl : l ≠ []) : (appLast c l).map jsTrim = l.map jsTrim := by
  induction l with
  | nil => exact absurd rfl hl
  | cons p ps ih =>
      rcases ps with _ | ⟨q, qs⟩
      · unfold appLast
        simp only [List.map_cons, List.map_nil]
        rw [jsTrim_append_ws p c hc]
      · show (p :: appLast c (q :: qs)).map jsTrim = (p :: q :: qs).map jsTrim
        simp only [List.map_cons]
        have := ih (by simp)
        simp only [List.map_cons] at this
        rw [this]

theorem map_jsTrim_splitComma_trimLeft (cs : List Char) :
    (splitComma (trimLeft cs)).map jsTrim = (splitComma cs).map jsTrim := by
  induction cs with
  | nil => rfl
  | cons c r ih =>
      by_cases hw : isWsChar c = true
      · have hc : c ≠ ',' := isWsChar_ne_comma c hw
        rcases hsp : splitComma r with _ | ⟨p, ps⟩
        · exact absurd hsp (splitComma_ne_nil r)
        · have hr : splitComma (c :: r) = (c :: p) :: ps := by
            unfold splitComma
            rw [if_neg hc, hsp]
          have hl : trimLeft (c :: r) = trimLeft r := by
            unfold trimLeft
            rw [List.dropWhile_cons_of_pos hw]
          rw [hl, ih, hsp, hr]
          simp only [List.map_cons]
          rw [jsTrim_cons_ws c hw p]
      · have hl : trimLeft (c :: r) = c :: r := by
          unfold trimLeft
          rw [List.dropWhile_cons_of_neg hw]
        rw [hl]

theorem map_jsTrim_splitComma_trimRight (cs : List Char) :
    (splitComma (trimRight cs)).map jsTrim = (splitComma cs).map jsTrim := by
  induction cs using List.reverseRecOn with
  | nil => rfl
  | append_singleton xs c ih =>
      by_cases hw : isWsChar c = true
      · rw [trimRight_append_ws xs c hw, ih,
          splitComma_append_not_comma xs c (isWsChar_ne_comma c hw),
          map_jsTrim_appLast c hw _ (splitComma_ne_nil xs)]
      · rw [trimRight_append_not_ws xs c hw]

theorem map_jsTrim_splitComma_jsTrim (cs : List Char) :
    (splitComma (jsTrim cs)).map jsTrim = (splitComma cs).map jsTrim := by
  calc (splitComma (jsTrim cs)).map jsTrim
      = (splitComma (trimRight (trimLeft cs))).map jsTrim := rfl
    _ = (splitComma (trimLeft cs)).map jsTrim :=
        map_jsTrim_splitComma_trimRight (trimLeft cs)
    _ = (splitComma cs).map jsTrim := map_jsTrim_splitComma_trimLeft cs

theorem jsTrim_eq_nil_all_ws (cs : List Char) (h : jsTrim cs = []) :
    ∀ c ∈ cs, isWsChar c = true := by
  have h1 : trimLeft ((trimLeft cs).reverse) = [] := by
    unfold jsTrim trimRight at h
    exact List.reverse_eq_nil_iff.mp h
  have h2 : ∀ c ∈ (trimLeft cs).reverse, isWsChar c = true := by
    unfold trimLeft at h1
    exact List.dropWhile_eq_nil_iff.mp h1
  intro c hc
  have hsplit := List.takeWhile_append_dropWhile isWsChar cs
  rw [← hsplit] at hc
  rcases List.mem_append.mp hc with h3 | h3
  · exact List.mem_takeWhile_imp h3
  · exact h2 c (List.mem_reverse.mpr h3)

theorem splitComma_no_comma (cs : List Char) (h : ∀ c ∈ cs, c ≠ ',') :
    splitComma cs = [cs] := by
  induction cs with
  | nil => rfl
  | cons c r ih =>
      unfold splitComma
      rw [if_neg (h c (List.mem_cons_self c r)),
        ih (fun x hx => h x (List.mem_cons_of_mem c hx))]

theorem map_parse_trim (l : List (List Char)) :
    l.map (fun p => jsParseFloat (jsTrim p)) = (l.map jsTrim).map jsParseFloat := by
  rw [List.map_map]
  rfl

/-- C10: for every raw input string, parseAndValidateFieldValues succeeds
exactly when at least 3 of the comma-split, trimmed pieces of the raw input
parse as floating-point numbers, in which case it returns exactly those
parsed values (non-numeric pieces are silently filtered out, never causing
rejection); otherwise — including on empty input — it fails; and a piece
with a numeric prefix followed by garbage, such as "3.5abc", counts as
numeric (it parses to 3.5). -/
theorem spec_C10_theorem :
    (∀ cs : List Char, parseAndValidateFieldValues cs =
        if 3 ≤ (numericPieces cs).length then some (numericPieces cs) else none) ∧
    jsParseFloat "3.5abc".toList = .num (7/2) ∧
    parseAndValidateFieldValues "".toList = none := by
  refine ⟨?_, by with_unfolding_all decide, by with_unfolding_all decide⟩
  intro cs
  unfold parseAndValidateFieldValues
  by_cases ht : jsTrim cs = []
  · rw [if_pos ht]
    have hws := jsTrim_eq_nil_all_ws cs ht
    have hnc : ∀ c ∈ cs, c ≠ ',' := fun c hc => isWsChar_ne_comma c (hws c hc)
    have hnil : numericPieces cs = [] := by
      unfold numericPieces
      rw [splitComma_no_comma cs hnc]
      simp only [List.map_cons, List.map_nil, ht]
      with_unfolding_all rfl
    rw [hnil]
    simp
  · rw [if_neg ht]
    have key : ((splitComma (jsTrim cs)).map (fun p => jsParseFloat (jsTrim p))).filter
        (fun v => ¬ v.isNaN) = numericPieces cs := by
      unfold numericPieces
      rw [map_parse_trim (splitComma (jsTrim cs)), map_parse_trim (splitComma cs),
        map_jsTrim_splitComma_jsTrim cs]
    rw [key]
